import Mathlib

/-!
Verification development for the alert- and task-management surface of the
IRIS DFIR case-management application.  The definitions below are a shallow
embedding of `app/datamgmt/case/case_tasks_db.py` and
`app/blueprints/alerts/alerts_routes.py`: the ORM-backed database becomes an
explicit record of lists, each route/data-access function becomes a pure
function from input and state to response and state, and external
collaborators (case creation, module hooks, the wall clock) become explicit
parameters or recorded trace events.
-/

namespace IrisSpec

/-! ## Task data model (`case_tasks_db.py`) -/

/-- A `CaseTasks` row.  `custom_attributes` is `none` when the Python value is
falsy (absent or empty). -/
structure TaskRec where
  id : Int
  task_case_id : Int
  task_userid_open : Int
  task_userid_update : Int
  task_open_date : Nat
  task_last_update : Nat
  task_status_id : Int
  custom_attributes : Option String
deriving DecidableEq

/-- The slice of the database the task functions touch: the `User` table (as
the list of existing user ids), the `CaseTasks` table, the `TaskAssignee`
join table as `(task_id, user_id)` rows, a counter of `db.session.commit()`
calls and a counter of `update_tasks_state` calls. -/
structure TasksDB where
  users : List Int
  tasks : List TaskRec
  task_assignees : List (Int × Int)
  commits : Nat
  states_updates : Nat
deriving DecidableEq

/-- `get_task(task_id, caseid)`: first `CaseTasks` row matching both ids. -/
def get_task (db : TasksDB) (task_id caseid : Int) : Option TaskRec :=
  db.tasks.find? (fun t => t.id == task_id && t.task_case_id == caseid)

/-- Modelled from the spec: `update_tasks_state` (in `app/datamgmt/states`,
outside the provided sources) recomputes the aggregate case task-state; here
it is recorded as a counter bump only. -/
def update_tasks_state (db : TasksDB) : TasksDB :=
  { db with states_updates := db.states_updates + 1 }

/-- `update_task_status(task_status, task_id, caseid)`: look the task up, set
its status id, refresh the aggregate state and commit; `False` when the task
is absent. -/
def update_task_status (db : TasksDB) (task_status : Int) (task_id caseid : Int) :
    Bool × TasksDB :=
  match get_task db task_id caseid with
  | some _ =>
    let db := { db with
      tasks := db.tasks.map (fun t =>
        if t.id == task_id && t.task_case_id == caseid then
          { t with task_status_id := task_status }
        else t) }
    let db := update_tasks_state db
    (true, { db with commits := db.commits + 1 })
  | none => (false, db)

/-- The `user_id` column of the `TaskAssignee` rows of a task
(`cur_assignee_list` in the source). -/
def reconciler_current (db : TasksDB) (task_id : Int) : List Int :=
  (db.task_assignees.filter (fun p => p.1 == task_id)).map Prod.snd

/-- `set_cur_assignees = set([assignee[0] for assignee in cur_assignee_list])`. -/
def set_cur_assignees (db : TasksDB) (task_id : Int) : List Int :=
  (reconciler_current db task_id).dedup

/-- `set_assignees = set(int(assignee) for assignee in task_assignee_list)`;
the argument list is modelled after `int` normalization. -/
def set_assignees (task_assignee_list : List Int) : List Int :=
  task_assignee_list.dedup

/-- `assignees_to_add = set_assignees - set_cur_assignees`. -/
def assignees_to_add (db : TasksDB) (task_id : Int) (task_assignee_list : List Int) :
    List Int :=
  (set_assignees task_assignee_list).filter
    (fun u => !(decide (u ∈ set_cur_assignees db task_id)))

/-- `assignees_to_remove = set_cur_assignees - set_assignees`. -/
def assignees_to_remove (db : TasksDB) (task_id : Int) (task_assignee_list : List Int) :
    List Int :=
  (set_cur_assignees db task_id).filter
    (fun u => !(decide (u ∈ set_assignees task_assignee_list)))

/-- The `for uid in assignees_to_add` loop: a join row is added only when the
`User` row exists; a missing user is silently skipped. -/
def reconciler_apply_adds (task_id : Int) : List Int → TasksDB → TasksDB
  | [], db => db
  | uid :: rest, db =>
    let db' :=
      if uid ∈ db.users then
        { db with task_assignees := db.task_assignees ++ [(task_id, uid)] }
      else db
    reconciler_apply_adds task_id rest db'

/-- The `for uid in assignees_to_remove` loop: delete by predicate
`(task_id, uid)`. -/
def reconciler_apply_removes (task_id : Int) : List Int → TasksDB → TasksDB
  | [], db => db
  | uid :: rest, db =>
    reconciler_apply_removes task_id rest
      { db with task_assignees :=
          db.task_assignees.filter (fun p => !(p.1 == task_id && p.2 == uid)) }

/-- `update_task_assignees(task, task_assignee_list)`: returns `None` (and
mutates nothing) when `task` is falsy; otherwise computes the set differences
against the current assignee rows, applies the adds then the removes, and
commits once. -/
def update_task_assignees (task : Option TaskRec) (task_assignee_list : List Int)
    (db : TasksDB) : Option TaskRec × TasksDB :=
  match task with
  | none => (none, db)
  | some task =>
    let db1 := reconciler_apply_adds task.id
      (assignees_to_add db task.id task_assignee_list) db
    let db2 := reconciler_apply_removes task.id
      (assignees_to_remove db task.id task_assignee_list) db1
    (some task, { db2 with commits := db2.commits + 1 })

/-- `add_task(task, assignee_id_list, user_id, caseid)`: a single captured
`now` feeds both timestamps, the creating user feeds both user columns, and a
falsy `custom_attributes` is replaced by the default custom attributes for
kind `'task'` (`gdca`, an external lookup passed as a parameter).  The row is
added, the aggregate state refreshed, the session committed, and then
`update_task_status` and `update_task_assignees` run. -/
def add_task (db : TasksDB) (task : TaskRec) (assignee_id_list : List Int)
    (user_id caseid : Int) (now : Nat) (gdca : String → String) :
    TaskRec × TasksDB :=
  let task := { task with
    task_case_id := caseid
    task_userid_open := user_id
    task_userid_update := user_id
    task_open_date := now
    task_last_update := now
    custom_attributes :=
      match task.custom_attributes with
      | some a => some a
      | none => some (gdca "task") }
  let db := { db with tasks := db.tasks ++ [task] }
  let db := update_tasks_state db
  let db := { db with commits := db.commits + 1 }
  let db := (update_task_status db task.task_status_id task.id caseid).2
  let db := (update_task_assignees (some task) assignee_id_list db).2
  (task, db)

/-! ## Alert data model (`alerts_routes.py`) -/

/-- An `Alert` row, restricted to the columns the evaluated routes touch. -/
structure Alert where
  alert_id : Int
  alert_status_id : Int
deriving DecidableEq

/-- A `Cases` row, restricted to the columns the evaluated routes touch. -/
structure CaseRec where
  case_id : Int
  name : String
  description : String
deriving DecidableEq

/-- An `AlertStatus` registry row. -/
structure AlertStatusRec where
  status_id : Int
  status_name : String
deriving DecidableEq

/-- A `Comments` row as produced by `CommentSchema().load` and the route's
subsequent assignments; fields the route sets are `Option`s, `none` until
assigned. -/
structure CommentRec where
  comment_text : String
  comment_alert_id : Option Int
  comment_user_id : Option Int
  comment_date : Option Nat
  comment_update_date : Option Nat
deriving DecidableEq

/-- Observable side effects of a route, recorded as a trace. -/
inductive Ev where
  | commit
  | accessGrant (case_id : Int)
  | moduleHook (hook_name : String) (obj_id : Int)
  | historyEntry (obj_id : Int) (entry : String)
  | trackActivity (msg : String)
  | mergeAlertInCase (alert_id case_id : Int) (note : Option String)
deriving DecidableEq

/-- The slice of the database the alert routes touch, plus the event trace. -/
structure AlertsDB where
  alerts : List Alert
  cases : List CaseRec
  statuses : List AlertStatusRec
  comments : List CommentRec
  events : List Ev
deriving DecidableEq

/-- The uniform response envelope: `response_success` / `response_error`. -/
inductive Resp where
  | success (data : String)
  | error (msg : String)
deriving DecidableEq

/-- Modelled from the spec: `get_alert_by_id` (in `app/datamgmt/alerts`,
outside the provided sources) is the Entity Store query-by-predicate lookup
of an `Alert` row by id. -/
def get_alert_by_id (db : AlertsDB) (alert_id : Int) : Option Alert :=
  db.alerts.find? (fun a => a.alert_id == alert_id)

/-- Modelled from the spec: `get_case` (in `app/datamgmt/case/case_db`,
outside the provided sources) is the Entity Store lookup of a `Cases` row. -/
def get_case (db : AlertsDB) (case_id : Int) : Option CaseRec :=
  db.cases.find? (fun c => c.case_id == case_id)

/-- `AlertStatus.query.filter_by(status_name=name).first()`. -/
def status_by_name (db : AlertsDB) (name : String) : Option AlertStatusRec :=
  db.statuses.find? (fun s => s.status_name == name)

/-- `alert.alert_status_id = sid` on the row(s) with the given alert id. -/
def set_alert_status (db : AlertsDB) (alert_id sid : Int) : AlertsDB :=
  { db with alerts := db.alerts.map (fun a =>
      if a.alert_id == alert_id then { a with alert_status_id := sid } else a) }

/-- Append one event to the trace. -/
def emit (db : AlertsDB) (e : Ev) : AlertsDB :=
  { db with events := db.events ++ [e] }

/-- `db.session.commit()`. -/
def db_commit (db : AlertsDB) : AlertsDB :=
  emit db .commit

/-- Python truthiness of the optional `note` field (`None` and `''` are
falsy). -/
def noteTruthy : Option String → Bool
  | none => false
  | some s => s != ""

/-- The alert's status id as seen through a fresh lookup. -/
def alert_status_of (db : AlertsDB) (alert_id : Int) : Option Int :=
  (get_alert_by_id db alert_id).map (fun a => a.alert_status_id)

/-! ### Single-alert escalate (`alerts_escalate_route`) -/

/-- `alerts_escalate_route(alert_id)`.  `mk_case` stands for
`create_case_from_alert` (outside the provided sources): `.error e` models an
exception raised inside it, `.ok none` a falsy return, `.ok (some c)` the
created case.  `hook` stands for `call_modules_hook('on_postload_case_create')`,
which may replace the case object.  The status change to the registry entry
named `"Escalated"` is committed before case creation; a missing registry
entry makes `.first().status_id` raise (`AttributeError`), caught by the
route's broad `except`. -/
def alerts_escalate_route (db : AlertsDB) (alert_id : Int)
    (mk_case : Alert → Except String (Option CaseRec))
    (hook : CaseRec → CaseRec) : Resp × AlertsDB :=
  match get_alert_by_id db alert_id with
  | none => (.error "Alert not found", db)
  | some alert =>
    match status_by_name db "Escalated" with
    | none => (.error "AttributeError", db)
    | some st =>
      let db := set_alert_status db alert.alert_id st.status_id
      let db := db_commit db
      match mk_case { alert with alert_status_id := st.status_id } with
      | .error e => (.error e, db)
      | .ok none => (.error "Failed to create case from alert", db)
      | .ok (some case) =>
        let db := { db with cases := db.cases ++ [case] }
        let db := emit db (.accessGrant case.case_id)
        let case2 := hook case
        let db := emit db (.moduleHook "on_postload_case_create" case.case_id)
        let db := emit db (.historyEntry case2.case_id "created")
        let db := emit db
          (.trackActivity ("new case " ++ case2.name ++ " created from alert"))
        (.success (toString case2.case_id), db)

/-! ### Single-alert merge (`alerts_merge_route`) -/

/-- `alerts_merge_route(alert_id)`: existence checks for the alert and the
target case precede any mutation; then the status change to `"Merged"` is
committed and `merge_alert_in_case` (outside the provided sources) is
recorded as an event carrying the supplied note. -/
def alerts_merge_route (db : AlertsDB) (alert_id : Int)
    (target_case_id : Option Int) (note : Option String) : Resp × AlertsDB :=
  match target_case_id with
  | none => (.error "No target case id provided", db)
  | some tcid =>
    match get_alert_by_id db alert_id with
    | none => (.error "Alert not found", db)
    | some alert =>
      match get_case db tcid with
      | none => (.error "Target case not found", db)
      | some case =>
        match status_by_name db "Merged" with
        | none => (.error "AttributeError", db)
        | some st =>
          let db := set_alert_status db alert.alert_id st.status_id
          let db := db_commit db
          let db := emit db (.mergeAlertInCase alert.alert_id case.case_id note)
          (.success (toString case.case_id), db)

/-! ### Batch merge (`alerts_batch_merge_route`) -/

/-- The `for alert_id in alert_ids.split(',')` loop of batch merge; the list
argument models the comma-separated id string after `split(',')` and `int`
conversion.  An id that does not resolve is skipped with `continue`; for a
resolved alert the status is set to the `"Merged"` registry entry and
committed, then `merge_alert_in_case` runs with `note=None`.  A missing
`"Merged"` registry entry raises (`AttributeError`), aborting the loop with
the state mutated so far. -/
def alerts_batch_merge_loop (case_id : Int) :
    List Int → AlertsDB → Except (String × AlertsDB) AlertsDB
  | [], db => .ok db
  | aid :: rest, db =>
    match get_alert_by_id db aid with
    | none => alerts_batch_merge_loop case_id rest db
    | some alert =>
      match status_by_name db "Merged" with
      | none => .error ("AttributeError", db)
      | some st =>
        let db := set_alert_status db alert.alert_id st.status_id
        let db := db_commit db
        let db := emit db (.mergeAlertInCase alert.alert_id case_id none)
        alerts_batch_merge_loop case_id rest db

/-- The post-loop note handling of batch merge:
`case.description += f"..." if case.description else f"..."` — the fixed
markdown header is used only when the already-loaded case's description is
truthy; then one commit. -/
def alerts_batch_merge_note (db : AlertsDB) (case : CaseRec)
    (note : Option String) : AlertsDB :=
  match note with
  | none => db
  | some n =>
    if n == "" then db
    else
      let newdesc := case.description ++
        (if case.description == "" then "\n\n" ++ n ++ "\n\n"
         else "\n\n### Escalation note\n\n" ++ n ++ "\n\n")
      let db := { db with cases := db.cases.map (fun c =>
          if c.case_id == case.case_id then { c with description := newdesc }
          else c) }
      db_commit db

/-- `alerts_batch_merge_route`: target case and a non-empty id list are
required; unresolvable ids are skipped silently; after the loop the note (if
truthy) is appended once to the case description. -/
def alerts_batch_merge_route (db : AlertsDB) (target_case_id : Option Int)
    (alert_ids : List Int) (note : Option String) : Resp × AlertsDB :=
  match target_case_id with
  | none => (.error "No target case id provided", db)
  | some tcid =>
    if alert_ids.isEmpty then (.error "No alert ids provided", db)
    else
      match get_case db tcid with
      | none => (.error "Target case not found", db)
      | some case =>
        match alerts_batch_merge_loop case.case_id alert_ids db with
        | .error (e, db) => (.error e, db)
        | .ok db =>
          let db := alerts_batch_merge_note db case note
          (.success (toString case.case_id), db)

/-! ### Batch escalate (`alerts_batch_escalate_route`) -/

/-- The loop of batch escalate: like batch merge it skips unresolvable ids
and sets each resolved alert's status to the `"Merged"` registry entry with a
commit per alert, but instead of merging it collects the resolved (updated)
alert objects into `alerts_list`. -/
def alerts_batch_escalate_loop :
    List Int → AlertsDB → List Alert → Except (String × AlertsDB) (AlertsDB × List Alert)
  | [], db, acc => .ok (db, acc)
  | aid :: rest, db, acc =>
    match get_alert_by_id db aid with
    | none => alerts_batch_escalate_loop rest db acc
    | some alert =>
      match status_by_name db "Merged" with
      | none => .error ("AttributeError", db)
      | some st =>
        let db := set_alert_status db alert.alert_id st.status_id
        let db := db_commit db
        alerts_batch_escalate_loop rest db
          (acc ++ [{ alert with alert_status_id := st.status_id }])

/-- `alerts_batch_escalate_route`: after the loop, `create_case_from_alerts`
(`mk_case`, outside the provided sources) is called exactly once on the whole
collected list; on success the access-grant, module-hook, history and
activity steps of single escalation follow. -/
def alerts_batch_escalate_route (db : AlertsDB) (alert_ids : List Int)
    (mk_case : List Alert → Except String (Option CaseRec))
    (hook : CaseRec → CaseRec) : Resp × AlertsDB :=
  if alert_ids.isEmpty then (.error "No alert ids provided", db)
  else
    match alerts_batch_escalate_loop alert_ids db [] with
    | .error (e, db) => (.error e, db)
    | .ok (db, alerts_list) =>
      match mk_case alerts_list with
      | .error e => (.error e, db)
      | .ok none => (.error "Failed to create case from alert", db)
      | .ok (some case) =>
        let db := { db with cases := db.cases ++ [case] }
        let db := emit db (.accessGrant case.case_id)
        let case2 := hook case
        let db := emit db (.moduleHook "on_postload_case_create" case.case_id)
        let db := emit db (.historyEntry case2.case_id "created")
        let db := emit db
          (.trackActivity ("new case " ++ case2.name ++ " created from alerts"))
        (.success (toString case2.case_id), db)

/-! ### Batch update (`alerts_batch_update_route`) -/

/-- The `for alert_id in alert_ids` loop of batch update (`alert_ids` is a
JSON list here).  The first id that does not resolve aborts the whole batch
with an error naming that id; otherwise the update (`upd`, standing for
`alert_schema.load(updates, instance=alert, partial=True)`) is applied to the
row and committed, one commit per alert. -/
def alerts_batch_update_loop (upd : Alert → Alert) :
    List Int → AlertsDB → Resp × AlertsDB
  | [], db => (.success "Batch update successful", db)
  | aid :: rest, db =>
    match get_alert_by_id db aid with
    | none => (.error ("Alert with ID " ++ toString aid ++ " not found"), db)
    | some alert =>
      let db := { db with alerts := db.alerts.map (fun a =>
          if a.alert_id == alert.alert_id then upd a else a) }
      let db := db_commit db
      alerts_batch_update_loop upd rest db

/-- `alerts_batch_update_route`: requires a non-empty id list, then runs the
per-id loop. -/
def alerts_batch_update_route (db : AlertsDB) (upd : Alert → Alert)
    (alert_ids : List Int) : Resp × AlertsDB :=
  if alert_ids.isEmpty then (.error "No alert IDs provided", db)
  else alerts_batch_update_loop upd alert_ids db

/-! ### Comment creation (`case_comment_add`) -/

/-- `case_comment_add(alert_id)`: the loaded comment (`body`, `none` when
schema validation fails) gets the alert id, the requesting user id and two
timestamps taken from two consecutive `datetime.now()` calls (`clock 0` then
`clock 1`); the comment is committed, a history entry is added and committed,
then hook and activity tracking run. -/
def case_comment_add (db : AlertsDB) (alert_id user_id : Int)
    (clock : Nat → Nat) (body : Option CommentRec) : Resp × AlertsDB :=
  match get_alert_by_id db alert_id with
  | none => (.error "Invalid alert ID", db)
  | some alert =>
    match body with
    | none => (.error "Data error", db)
    | some c0 =>
      let c1 := { c0 with
        comment_alert_id := some alert_id
        comment_user_id := some user_id
        comment_date := some (clock 0)
        comment_update_date := some (clock 1) }
      let db := { db with comments := db.comments ++ [c1] }
      let db := db_commit db
      let db := emit db (.historyEntry alert.alert_id "commented")
      let db := db_commit db
      let db := emit db (.moduleHook "on_postload_alert_commented" alert.alert_id)
      let db := emit db
        (.trackActivity ("alert " ++ toString alert.alert_id ++ " commented"))
      (.success "Alert commented", db)

/-! ## Helper lemmas: assignment reconciler -/

theorem reconciler_apply_adds_users (task_id : Int) :
    ∀ (l : List Int) (db : TasksDB), (reconciler_apply_adds task_id l db).users = db.users := by
  intro l
  induction l with
  | nil => intro db; rfl
  | cons uid rest ih =>
    intro db
    simp only [reconciler_apply_adds]
    split <;> simp [ih]

theorem reconciler_apply_adds_commits (task_id : Int) :
    ∀ (l : List Int) (db : TasksDB), (reconciler_apply_adds task_id l db).commits = db.commits := by
  intro l
  induction l with
  | nil => intro db; rfl
  | cons uid rest ih =>
    intro db
    simp only [reconciler_apply_adds]
    split <;> simp [ih]

theorem reconciler_apply_removes_users (task_id : Int) :
    ∀ (l : List Int) (db : TasksDB), (reconciler_apply_removes task_id l db).users = db.users := by
  intro l
  induction l with
  | nil => intro db; rfl
  | cons uid rest ih => intro db; simp [reconciler_apply_removes, ih]

theorem reconciler_apply_removes_commits (task_id : Int) :
    ∀ (l : List Int) (db : TasksDB), (reconciler_apply_removes task_id l db).commits = db.commits := by
  intro l
  induction l with
  | nil => intro db; rfl
  | cons uid rest ih => intro db; simp [reconciler_apply_removes, ih]

/-- Membership in the join table after the add loop. -/
theorem reconciler_apply_adds_mem (task_id : Int) :
    ∀ (l : List Int) (db : TasksDB) (t u : Int),
      (t, u) ∈ (reconciler_apply_adds task_id l db).task_assignees ↔
        ((t, u) ∈ db.task_assignees ∨ (t = task_id ∧ u ∈ l ∧ u ∈ db.users)) := by
  intro l
  induction l with
  | nil => intro db t u; simp [reconciler_apply_adds]
  | cons uid rest ih =>
    intro db t u
    simp only [reconciler_apply_adds]
    split
    · rename_i hmem
      rw [ih]
      have huser : ∀ x : Int, x = uid → x ∈ db.users := fun x hx => by
        rw [hx]; exact hmem
      simp only [List.mem_append, List.mem_singleton, Prod.mk.injEq, List.mem_cons]
      tauto
    · rename_i hmem
      rw [ih]
      have huser : ∀ x : Int, x = uid → x ∉ db.users := fun x hx => by
        rw [hx]; exact hmem
      simp only [List.mem_cons]
      tauto

/-- If every id in the list is a missing user, the add loop is the identity. -/
theorem reconciler_apply_adds_all_skipped (task_id : Int) :
    ∀ (l : List Int) (db : TasksDB), (∀ u ∈ l, u ∉ db.users) →
      reconciler_apply_adds task_id l db = db := by
  intro l
  induction l with
  | nil => intro db _; rfl
  | cons uid rest ih =>
    intro db h
    simp only [reconciler_apply_adds]
    rw [if_neg (h uid (List.mem_cons_self uid rest))]
    exact ih db (fun u hu => h u (List.mem_cons_of_mem uid hu))

/-- Membership in the join table after the remove loop. -/
theorem reconciler_apply_removes_mem (task_id : Int) :
    ∀ (l : List Int) (db : TasksDB) (t u : Int),
      (t, u) ∈ (reconciler_apply_removes task_id l db).task_assignees ↔
        ((t, u) ∈ db.task_assignees ∧ ¬(t = task_id ∧ u ∈ l)) := by
  intro l
  induction l with
  | nil => intro db t u; simp [reconciler_apply_removes]
  | cons uid rest ih =>
    intro db t u
    simp only [reconciler_apply_removes]
    rw [ih]
    simp only [List.mem_filter, Bool.not_eq_true', List.mem_cons,
      Bool.and_eq_false_imp, beq_iff_eq, beq_eq_false_iff_ne, ne_eq]
    constructor
    · rintro ⟨⟨h1, h2⟩, h3⟩
      refine ⟨h1, ?_⟩
      rintro ⟨rfl, (rfl | hu)⟩
      · exact (h2 rfl) rfl
      · exact h3 ⟨rfl, hu⟩
    · rintro ⟨h1, h2⟩
      refine ⟨⟨h1, ?_⟩, ?_⟩
      · intro ht hu
        exact h2 ⟨ht, Or.inl hu⟩
      · rintro ⟨rfl, hu⟩
        exact h2 ⟨rfl, Or.inr hu⟩

/-- `u ∈ set_cur_assignees db tid` is exactly membership of the join row. -/
theorem mem_set_cur_assignees (db : TasksDB) (task_id u : Int) :
    u ∈ set_cur_assignees db task_id ↔ (task_id, u) ∈ db.task_assignees := by
  simp only [set_cur_assignees, reconciler_current, List.mem_dedup, List.mem_map,
    List.mem_filter, beq_iff_eq]
  constructor
  · rintro ⟨⟨a, b⟩, ⟨hmem, rfl⟩, rfl⟩
    exact hmem
  · intro h
    exact ⟨(task_id, u), ⟨h, rfl⟩, rfl⟩

theorem mem_assignees_to_add (db : TasksDB) (task_id u : Int) (l : List Int) :
    u ∈ assignees_to_add db task_id l ↔ u ∈ l ∧ (task_id, u) ∉ db.task_assignees := by
  simp only [assignees_to_add, set_assignees, List.mem_filter, List.mem_dedup,
    Bool.not_eq_true', decide_eq_false_iff_not, mem_set_cur_assignees]

theorem mem_assignees_to_remove (db : TasksDB) (task_id u : Int) (l : List Int) :
    u ∈ assignees_to_remove db task_id l ↔ (task_id, u) ∈ db.task_assignees ∧ u ∉ l := by
  simp only [assignees_to_remove, set_assignees, List.mem_filter, mem_set_cur_assignees,
    Bool.not_eq_true', decide_eq_false_iff_not, List.mem_dedup]

/-- Scalar fields after a successful reconciliation. -/
theorem update_task_assignees_some_fields (db : TasksDB) (task : TaskRec) (l : List Int) :
    (update_task_assignees (some task) l db).1 = some task ∧
    (update_task_assignees (some task) l db).2.users = db.users ∧
    (update_task_assignees (some task) l db).2.commits = db.commits + 1 := by
  refine ⟨rfl, ?_, ?_⟩
  · simp [update_task_assignees, reconciler_apply_removes_users, reconciler_apply_adds_users]
  · simp [update_task_assignees, reconciler_apply_removes_commits, reconciler_apply_adds_commits]

/-- Membership in the join table after a successful reconciliation. -/
theorem update_task_assignees_some_mem (db : TasksDB) (task : TaskRec) (l : List Int)
    (t u : Int) :
    (t, u) ∈ (update_task_assignees (some task) l db).2.task_assignees ↔
      (((t, u) ∈ db.task_assignees ∨
          (t = task.id ∧ u ∈ assignees_to_add db task.id l ∧ u ∈ db.users)) ∧
        ¬(t = task.id ∧ u ∈ assignees_to_remove db task.id l)) := by
  simp only [update_task_assignees]
  rw [reconciler_apply_removes_mem, reconciler_apply_adds_mem]

/-- After reconciling with desired list `l`, every assigned user of the task
is in `l`. -/
theorem mem_current_after_subset (db : TasksDB) (task : TaskRec) (l : List Int) (u : Int)
    (h : (task.id, u) ∈ (update_task_assignees (some task) l db).2.task_assignees) :
    u ∈ l := by
  rw [update_task_assignees_some_mem] at h
  obtain ⟨h1 | ⟨_, h2, _⟩, h3⟩ := h
  · by_contra hu
    exact h3 ⟨rfl, (mem_assignees_to_remove db task.id u l).2 ⟨h1, hu⟩⟩
  · exact ((mem_assignees_to_add db task.id u l).1 h2).1

/-- After reconciling with desired list `l`, every id of `l` that is an
existing user is assigned. -/
theorem mem_current_after_of_user (db : TasksDB) (task : TaskRec) (l : List Int) (u : Int)
    (hl : u ∈ l) (hu : u ∈ db.users) :
    (task.id, u) ∈ (update_task_assignees (some task) l db).2.task_assignees := by
  rw [update_task_assignees_some_mem]
  constructor
  · by_cases hc : (task.id, u) ∈ db.task_assignees
    · exact Or.inl hc
    · exact Or.inr ⟨rfl, (mem_assignees_to_add db task.id u l).2 ⟨hl, hc⟩, hu⟩
  · rintro ⟨-, hr⟩
    exact ((mem_assignees_to_remove db task.id u l).1 hr).2 hl

/-! ## Claim theorems: task reconciler -/

/-- C9: the assignment reconciler requires the task to already exist; when
the task reference is absent (`None` in the source, the NotFound signal its
callers surface) it returns the failure value and performs no mutation at
all: the database state is returned unchanged. -/
theorem update_task_assignees_absent_task (l : List Int) (db : TasksDB) :
    update_task_assignees none l db = (none, db) := rfl

/-- C7: for every id in `to_add` whose user does not exist, the id is
silently skipped — the call still returns the task (no error) and no join
relation is created; for every id in `to_add` whose user exists, the join
relation `(task, user)` is created; and the whole call performs exactly one
commit after all adds and removes. -/
theorem reconciler_add_semantics_single_commit (db : TasksDB) (task : TaskRec)
    (l : List Int) (u : Int) (hu : u ∈ assignees_to_add db task.id l) :
    (update_task_assignees (some task) l db).1 = some task ∧
    (u ∉ db.users → (task.id, u) ∉ (update_task_assignees (some task) l db).2.task_assignees) ∧
    (u ∈ db.users → (task.id, u) ∈ (update_task_assignees (some task) l db).2.task_assignees) ∧
    (update_task_assignees (some task) l db).2.commits = db.commits + 1 := by
  obtain ⟨hul, hnot⟩ := (mem_assignees_to_add db task.id u l).1 hu
  refine ⟨rfl, ?_, ?_, (update_task_assignees_some_fields db task l).2.2⟩
  · intro huser
    rw [update_task_assignees_some_mem]
    rintro ⟨h1 | ⟨-, -, h3⟩, -⟩
    · exact hnot h1
    · exact huser h3
  · intro huser
    exact mem_current_after_of_user db task l u hul huser

/-- C7 witness: a concrete reconciliation where desired id 5 is an existing
user (join row created) and desired id 6 is not (silently skipped), with a
single commit. -/
theorem reconciler_add_semantics_single_commit_witness :
    (6 ∈ assignees_to_add ⟨[5], [], [], 0, 0⟩ 1 [5, 6]) ∧
    ((update_task_assignees (some ⟨1, 1, 0, 0, 0, 0, 0, none⟩) [5, 6]
        ⟨[5], [], [], 0, 0⟩).1 = some ⟨1, 1, 0, 0, 0, 0, 0, none⟩ ∧
      ((6 : Int) ∉ [(5 : Int)] → ((1 : Int), (6 : Int)) ∉
        (update_task_assignees (some ⟨1, 1, 0, 0, 0, 0, 0, none⟩) [5, 6]
          ⟨[5], [], [], 0, 0⟩).2.task_assignees) ∧
      ((6 : Int) ∈ [(5 : Int)] → ((1 : Int), (6 : Int)) ∈
        (update_task_assignees (some ⟨1, 1, 0, 0, 0, 0, 0, none⟩) [5, 6]
          ⟨[5], [], [], 0, 0⟩).2.task_assignees) ∧
      (update_task_assignees (some ⟨1, 1, 0, 0, 0, 0, 0, none⟩) [5, 6]
        ⟨[5], [], [], 0, 0⟩).2.commits = 0 + 1) :=
  ⟨by decide, reconciler_add_semantics_single_commit ⟨[5], [], [], 0, 0⟩
    ⟨1, 1, 0, 0, 0, 0, 0, none⟩ [5, 6] 6 (by decide)⟩

/-- C1 counterexample: the claim says the second reconciliation with the same
desired list computes an empty `to_add`; with desired list `[5]` on a task
with no assignees and no user 5 in the user table, the second call's
`to_add` is `[5]`, not empty. -/
theorem reconciler_second_call_to_add_ne_nil :
    assignees_to_add
      ((update_task_assignees (some ⟨1, 1, 0, 0, 0, 0, 0, none⟩) [5]
        ⟨[], [⟨1, 1, 0, 0, 0, 0, 0, none⟩], [], 0, 0⟩).2) 1 [5] = [5] ∧
    ([5] : List Int) ≠ [] := by
  constructor
  · decide
  · decide

/-- C1 amended: applying the reconciler a second time with the same desired
list performs no further mutation — the only state change of the second call
is the commit counter (a commit of an untouched session); the second call's
`to_remove` is always empty, and its `to_add` is empty provided every desired
id is an existing user (ids of missing users reappear in `to_add` but are
skipped again without mutation); moreover reconciling with a desired list
equal to the current assignee list computes zero additions and zero
removals. -/
theorem reconciler_idempotent_amended (db : TasksDB) (task : TaskRec) (l : List Int) :
    (update_task_assignees (some task) l
        ((update_task_assignees (some task) l db).2) =
      (some task, { (update_task_assignees (some task) l db).2 with
        commits := (update_task_assignees (some task) l db).2.commits + 1 })) ∧
    assignees_to_remove ((update_task_assignees (some task) l db).2) task.id l = [] ∧
    ((∀ u ∈ l, u ∈ db.users) →
      assignees_to_add ((update_task_assignees (some task) l db).2) task.id l = []) ∧
    assignees_to_add db task.id (reconciler_current db task.id) = [] ∧
    assignees_to_remove db task.id (reconciler_current db task.id) = [] := by
  have husers := (update_task_assignees_some_fields db task l).2.1
  have hremove :
      assignees_to_remove ((update_task_assignees (some task) l db).2) task.id l = [] := by
    rw [assignees_to_remove, List.filter_eq_nil_iff]
    intro u hu
    rw [mem_set_cur_assignees] at hu
    simp only [Bool.not_eq_true', decide_eq_false_iff_not, Decidable.not_not, set_assignees,
      List.mem_dedup]
    exact mem_current_after_subset db task l u hu
  have hadd : (∀ u ∈ l, u ∈ db.users) →
      assignees_to_add ((update_task_assignees (some task) l db).2) task.id l = [] := by
    intro hall
    rw [assignees_to_add, List.filter_eq_nil_iff]
    intro u hu
    simp only [set_assignees, List.mem_dedup] at hu
    simp only [Bool.not_eq_true', decide_eq_false_iff_not, Decidable.not_not,
      mem_set_cur_assignees]
    exact mem_current_after_of_user db task l u hu (hall u hu)
  refine ⟨?_, hremove, hadd, ?_, ?_⟩
  · have hskip : ∀ u ∈ assignees_to_add ((update_task_assignees (some task) l db).2)
        task.id l, u ∉ ((update_task_assignees (some task) l db).2).users := by
      intro u hu
      rw [husers]
      obtain ⟨hul, hnot⟩ := (mem_assignees_to_add _ task.id u l).1 hu
      intro huser
      exact hnot (mem_current_after_of_user db task l u hul huser)
    conv_lhs => rw [update_task_assignees]
    rw [reconciler_apply_adds_all_skipped task.id _ _ hskip, hremove]
    rfl
  · rw [assignees_to_add, List.filter_eq_nil_iff]
    intro u hu
    simp only [set_assignees, List.mem_dedup] at hu
    simp only [Bool.not_eq_true', decide_eq_false_iff_not, Decidable.not_not,
      mem_set_cur_assignees]
    rw [← mem_set_cur_assignees]
    simp only [set_cur_assignees, List.mem_dedup]
    exact hu
  · rw [assignees_to_remove, List.filter_eq_nil_iff]
    intro u hu
    simp only [Bool.not_eq_true', decide_eq_false_iff_not, Decidable.not_not, set_assignees,
      List.mem_dedup]
    rw [mem_set_cur_assignees] at hu
    rw [← mem_set_cur_assignees] at hu
    simp only [set_cur_assignees, List.mem_dedup] at hu
    exact hu

/-- C1 amended witness: the amended statement instantiated at a concrete
database (user 5 exists, task 1 has no assignees, desired list `[5]`),
discharging the all-users-exist hypothesis. -/
theorem reconciler_idempotent_amended_witness :
    ((∀ u ∈ [(5 : Int)], u ∈ TasksDB.users ⟨[5], [⟨1, 1, 0, 0, 0, 0, 0, none⟩], [], 0, 0⟩) →
      assignees_to_add ((update_task_assignees (some ⟨1, 1, 0, 0, 0, 0, 0, none⟩) [5]
        ⟨[5], [⟨1, 1, 0, 0, 0, 0, 0, none⟩], [], 0, 0⟩).2) 1 [5] = []) ∧
    (∀ u ∈ [(5 : Int)], u ∈ TasksDB.users ⟨[5], [⟨1, 1, 0, 0, 0, 0, 0, none⟩], [], 0, 0⟩) ∧
    assignees_to_add ((update_task_assignees (some ⟨1, 1, 0, 0, 0, 0, 0, none⟩) [5]
      ⟨[5], [⟨1, 1, 0, 0, 0, 0, 0, none⟩], [], 0, 0⟩).2) 1 [5] = [] := by
  have h := reconciler_idempotent_amended ⟨[5], [⟨1, 1, 0, 0, 0, 0, 0, none⟩], [], 0, 0⟩
    ⟨1, 1, 0, 0, 0, 0, 0, none⟩ [5]
  exact ⟨h.2.2.1, by decide, h.2.2.1 (by decide)⟩

/-- C10: every task created via `add_task` has equal open and last-update
timestamps (one captured `now`), equal opening and updating user ids (the
creating user), the supplied case id as its case reference, and — when no
custom attributes were supplied — the default custom attributes for kind
`'task'`. -/
theorem add_task_field_initialization (db : TasksDB) (task : TaskRec)
    (assignee_id_list : List Int) (user_id caseid : Int) (now : Nat)
    (gdca : String → String) :
    (add_task db task assignee_id_list user_id caseid now gdca).1.task_open_date = now ∧
    (add_task db task assignee_id_list user_id caseid now gdca).1.task_last_update = now ∧
    (add_task db task assignee_id_list user_id caseid now gdca).1.task_userid_open = user_id ∧
    (add_task db task assignee_id_list user_id caseid now gdca).1.task_userid_update = user_id ∧
    (add_task db task assignee_id_list user_id caseid now gdca).1.task_case_id = caseid ∧
    (task.custom_attributes = none →
      (add_task db task assignee_id_list user_id caseid now gdca).1.custom_attributes =
        some (gdca "task")) := by
  refine ⟨rfl, rfl, rfl, rfl, rfl, ?_⟩
  intro h
  simp [add_task, h]

/-- C10 witness: `add_task` at a concrete task with no custom attributes. -/
theorem add_task_field_initialization_witness :
    (TaskRec.custom_attributes ⟨1, 0, 0, 0, 0, 0, 0, none⟩ = none) ∧
    (add_task ⟨[], [], [], 0, 0⟩ ⟨1, 0, 0, 0, 0, 0, 0, none⟩ [] 7 9 3
        (fun _ => "defaults")).1.custom_attributes = some "defaults" :=
  ⟨rfl, (add_task_field_initialization ⟨[], [], [], 0, 0⟩ ⟨1, 0, 0, 0, 0, 0, 0, none⟩
    [] 7 9 3 (fun _ => "defaults")).2.2.2.2.2 rfl⟩

/-! ## Helper lemmas: alert routes -/

@[simp] theorem set_alert_status_alerts (db : AlertsDB) (aid sid : Int) :
    (set_alert_status db aid sid).alerts = db.alerts.map (fun a =>
      if a.alert_id == aid then { a with alert_status_id := sid } else a) := rfl

@[simp] theorem set_alert_status_cases (db : AlertsDB) (aid sid : Int) :
    (set_alert_status db aid sid).cases = db.cases := rfl

@[simp] theorem set_alert_status_statuses (db : AlertsDB) (aid sid : Int) :
    (set_alert_status db aid sid).statuses = db.statuses := rfl

@[simp] theorem set_alert_status_comments (db : AlertsDB) (aid sid : Int) :
    (set_alert_status db aid sid).comments = db.comments := rfl

@[simp] theorem set_alert_status_events (db : AlertsDB) (aid sid : Int) :
    (set_alert_status db aid sid).events = db.events := rfl

@[simp] theorem emit_alerts (db : AlertsDB) (e : Ev) : (emit db e).alerts = db.alerts := rfl

@[simp] theorem emit_cases (db : AlertsDB) (e : Ev) : (emit db e).cases = db.cases := rfl

@[simp] theorem emit_statuses (db : AlertsDB) (e : Ev) : (emit db e).statuses = db.statuses := rfl

@[simp] theorem emit_comments (db : AlertsDB) (e : Ev) : (emit db e).comments = db.comments := rfl

@[simp] theorem emit_events (db : AlertsDB) (e : Ev) : (emit db e).events = db.events ++ [e] := rfl

@[simp] theorem get_alert_emit (db : AlertsDB) (e : Ev) (x : Int) :
    get_alert_by_id (emit db e) x = get_alert_by_id db x := rfl

@[simp] theorem get_case_emit (db : AlertsDB) (e : Ev) (x : Int) :
    get_case (emit db e) x = get_case db x := rfl

@[simp] theorem status_by_name_emit (db : AlertsDB) (e : Ev) (n : String) :
    status_by_name (emit db e) n = status_by_name db n := rfl

@[simp] theorem get_case_set_status (db : AlertsDB) (aid sid x : Int) :
    get_case (set_alert_status db aid sid) x = get_case db x := rfl

@[simp] theorem status_by_name_set_status (db : AlertsDB) (aid sid : Int) (n : String) :
    status_by_name (set_alert_status db aid sid) n = status_by_name db n := rfl

/-- Looking an alert up after a status write: same row, status possibly
rewritten. -/
theorem get_alert_set_status (db : AlertsDB) (aid sid x : Int) :
    get_alert_by_id (set_alert_status db aid sid) x =
      (get_alert_by_id db x).map (fun a =>
        if a.alert_id == aid then { a with alert_status_id := sid } else a) := by
  simp only [get_alert_by_id, set_alert_status]
  rw [List.find?_map]
  have hp : ((fun a : Alert => a.alert_id == x) ∘ fun a =>
      if a.alert_id == aid then { a with alert_status_id := sid } else a) =
      (fun a : Alert => a.alert_id == x) := by
    funext a
    by_cases h : a.alert_id == aid <;> simp [h, Function.comp]
  rw [hp]

theorem get_alert_set_status_isSome (db : AlertsDB) (aid sid x : Int) :
    (get_alert_by_id (set_alert_status db aid sid) x).isSome =
      (get_alert_by_id db x).isSome := by
  rw [get_alert_set_status]
  cases get_alert_by_id db x <;> rfl

/-- The row returned by `get_alert_by_id` carries the looked-up id. -/
theorem get_alert_by_id_eq_id (db : AlertsDB) (x : Int) (a : Alert)
    (h : get_alert_by_id db x = some a) : a.alert_id = x := by
  have := List.find?_some h
  simpa using this

/-- The row returned by `get_case` carries the looked-up id. -/
theorem get_case_eq_id (db : AlertsDB) (x : Int) (c : CaseRec)
    (h : get_case db x = some c) : c.case_id = x := by
  have := List.find?_some h
  simpa using this

/-- The row returned by `status_by_name` carries the looked-up name. -/
theorem status_by_name_eq_name (db : AlertsDB) (n : String) (s : AlertStatusRec)
    (h : status_by_name db n = some s) : s.status_name = n := by
  have := List.find?_some h
  simpa using this

/-! ## Claim theorems: single-alert routes -/

/-- C2: single-alert escalate sets the alert's status to the registry entry
named `"Escalated"` and commits that change before the case-creation step;
whether case creation returns a falsy case or raises, the route returns an
error while the alert keeps the Escalated status, and the only event of the
failed request is that one commit (nothing rolls the status back). -/
theorem escalate_commits_status_before_case_creation
    (db : AlertsDB) (alert_id : Int) (alert : Alert) (st : AlertStatusRec)
    (mk_case : Alert → Except String (Option CaseRec)) (hook : CaseRec → CaseRec)
    (halert : get_alert_by_id db alert_id = some alert)
    (hst : status_by_name db "Escalated" = some st) :
    st.status_name = "Escalated" ∧
    (mk_case { alert with alert_status_id := st.status_id } = Except.ok none →
      alerts_escalate_route db alert_id mk_case hook =
        (.error "Failed to create case from alert",
          db_commit (set_alert_status db alert.alert_id st.status_id))) ∧
    (∀ e, mk_case { alert with alert_status_id := st.status_id } = Except.error e →
      alerts_escalate_route db alert_id mk_case hook =
        (.error e, db_commit (set_alert_status db alert.alert_id st.status_id))) ∧
    alert_status_of (db_commit (set_alert_status db alert.alert_id st.status_id)) alert_id =
      some st.status_id ∧
    (db_commit (set_alert_status db alert.alert_id st.status_id)).events =
      db.events ++ [Ev.commit] := by
  refine ⟨status_by_name_eq_name db "Escalated" st hst, ?_, ?_, ?_, ?_⟩
  · intro hf
    simp only [alerts_escalate_route, halert, hst, hf]
  · intro e hf
    simp only [alerts_escalate_route, halert, hst, hf]
  · have hid : alert.alert_id = alert_id := get_alert_by_id_eq_id db alert_id alert halert
    simp [alert_status_of, db_commit, get_alert_set_status, halert, hid]
  · simp [db_commit]

/-- C2 witness: a concrete escalation whose case creation returns a falsy
case; the route errors and the alert stays Escalated. -/
theorem escalate_commits_status_before_case_creation_witness :
    (get_alert_by_id ⟨[⟨1, 0⟩], [], [⟨7, "Escalated"⟩], [], []⟩ 1 = some ⟨1, 0⟩) ∧
    (status_by_name ⟨[⟨1, 0⟩], [], [⟨7, "Escalated"⟩], [], []⟩ "Escalated" =
      some ⟨7, "Escalated"⟩) ∧
    ((fun _ : Alert => (Except.ok none : Except String (Option CaseRec))) ⟨1, 7⟩ =
      Except.ok none) ∧
    alerts_escalate_route ⟨[⟨1, 0⟩], [], [⟨7, "Escalated"⟩], [], []⟩ 1
        (fun _ => Except.ok none) id =
      (.error "Failed to create case from alert",
        db_commit (set_alert_status ⟨[⟨1, 0⟩], [], [⟨7, "Escalated"⟩], [], []⟩ 1 7)) ∧
    alert_status_of
        (db_commit (set_alert_status ⟨[⟨1, 0⟩], [], [⟨7, "Escalated"⟩], [], []⟩ 1 7)) 1 =
      some 7 := by
  have h := escalate_commits_status_before_case_creation
    ⟨[⟨1, 0⟩], [], [⟨7, "Escalated"⟩], [], []⟩ 1 ⟨1, 0⟩ ⟨7, "Escalated"⟩
    (fun _ => Except.ok none) id rfl rfl
  exact ⟨rfl, rfl, rfl, h.2.1 rfl, h.2.2.2.1⟩

/-- C5: single-alert merge requires both the alert and the target case; a
missing alert yields `"Alert not found"`, a present alert with a missing
target case yields the distinct `"Target case not found"`, and in both
failure cases the returned state is exactly the input state — no mutation
happens before both existence checks pass. -/
theorem merge_requires_alert_and_case (db : AlertsDB) (alert_id tcid : Int)
    (note : Option String) :
    (get_alert_by_id db alert_id = none →
      alerts_merge_route db alert_id (some tcid) note = (.error "Alert not found", db)) ∧
    (∀ a, get_alert_by_id db alert_id = some a → get_case db tcid = none →
      alerts_merge_route db alert_id (some tcid) note =
        (.error "Target case not found", db)) := by
  constructor
  · intro h
    simp only [alerts_merge_route, h]
  · intro a ha hc
    simp only [alerts_merge_route, ha, hc]

/-- C5 witness: both failure branches exercised on concrete databases; the
second leaves the alert's status untouched because the whole state is
unchanged. -/
theorem merge_requires_alert_and_case_witness :
    (get_alert_by_id ⟨[], [], [], [], []⟩ 1 = none ∧
      alerts_merge_route ⟨[], [], [], [], []⟩ 1 (some 9) none =
        (.error "Alert not found", ⟨[], [], [], [], []⟩)) ∧
    (get_alert_by_id ⟨[⟨1, 4⟩], [], [], [], []⟩ 1 = some ⟨1, 4⟩ ∧
      get_case ⟨[⟨1, 4⟩], [], [], [], []⟩ 9 = none ∧
      alerts_merge_route ⟨[⟨1, 4⟩], [], [], [], []⟩ 1 (some 9) none =
        (.error "Target case not found", ⟨[⟨1, 4⟩], [], [], [], []⟩)) := by
  refine ⟨⟨rfl, ?_⟩, rfl, rfl, ?_⟩
  · exact (merge_requires_alert_and_case ⟨[], [], [], [], []⟩ 1 9 none).1 rfl
  · exact (merge_requires_alert_and_case ⟨[⟨1, 4⟩], [], [], [], []⟩ 1 9 none).2 ⟨1, 4⟩ rfl rfl

/-- C6 counterexample: with a ticking clock (`clock k = k`, so the two
consecutive `datetime.now()` reads differ), a successful comment creation
stores a comment whose creation timestamp (0) differs from its update
timestamp (1) — refuting the claimed equality of the two timestamps. -/
theorem comment_timestamps_differ :
    (case_comment_add ⟨[⟨3, 0⟩], [], [], [], []⟩ 3 10 (fun k => k)
      (some ⟨"hi", none, none, none, none⟩)).1 = .success "Alert commented" ∧
    ((case_comment_add ⟨[⟨3, 0⟩], [], [], [], []⟩ 3 10 (fun k => k)
      (some ⟨"hi", none, none, none, none⟩)).2.comments.map
        (fun c => (c.comment_date, c.comment_update_date))) = [(some 0, some 1)] ∧
    (some (0 : Nat) ≠ some (1 : Nat)) :=
  ⟨rfl, rfl, by decide⟩

/-- C6 amended: a successful comment creation on an existing alert stores a
comment whose alert reference is the alert's id, whose author is the
requesting user, and whose creation and update timestamps are set from the
two consecutive clock reads (creation first); the two timestamps are equal
whenever the two reads return the same instant — which the code does not
enforce. -/
theorem comment_add_amended (db : AlertsDB) (alert_id user_id : Int)
    (clock : Nat → Nat) (c0 : CommentRec) (alert : Alert)
    (halert : get_alert_by_id db alert_id = some alert) :
    (case_comment_add db alert_id user_id clock (some c0)).1 =
      .success "Alert commented" ∧
    (case_comment_add db alert_id user_id clock (some c0)).2.comments =
      db.comments ++ [{ c0 with
        comment_alert_id := some alert_id
        comment_user_id := some user_id
        comment_date := some (clock 0)
        comment_update_date := some (clock 1) }] ∧
    (clock 0 = clock 1 →
      (case_comment_add db alert_id user_id clock (some c0)).2.comments =
        db.comments ++ [{ c0 with
          comment_alert_id := some alert_id
          comment_user_id := some user_id
          comment_date := some (clock 0)
          comment_update_date := some (clock 0) }]) := by
  refine ⟨?_, ?_, ?_⟩
  · simp only [case_comment_add, halert]
  · simp only [case_comment_add, halert]
    simp [db_commit]
  · intro hc
    simp only [case_comment_add, halert]
    simp [db_commit, hc]

/-- C6 amended witness: a constant clock makes both timestamps equal. -/
theorem comment_add_amended_witness :
    (get_alert_by_id ⟨[⟨3, 0⟩], [], [], [], []⟩ 3 = some ⟨3, 0⟩) ∧
    ((0 : Nat) = 0 →
      (case_comment_add ⟨[⟨3, 0⟩], [], [], [], []⟩ 3 10 (fun _ => 0)
        (some ⟨"hi", none, none, none, none⟩)).2.comments =
      [] ++ [⟨"hi", some 3, some 10, some 0, some 0⟩]) := by
  have h := comment_add_amended ⟨[⟨3, 0⟩], [], [], [], []⟩ 3 10 (fun _ => 0)
    ⟨"hi", none, none, none, none⟩ ⟨3, 0⟩ rfl
  exact ⟨rfl, fun _ => h.2.2 rfl⟩

/-! ## Helper lemmas: batch loops -/

/-- Closed form of the batch-merge loop when the `"Merged"` registry entry
exists: every resolvable id's alert gets the Merged status, and the trace
grows by one commit plus one note-less merge per resolvable id, in list
order; unresolvable ids contribute nothing. -/
theorem batch_merge_loop_spec (cid : Int) (st : AlertStatusRec) :
    ∀ (ids : List Int) (db : AlertsDB), status_by_name db "Merged" = some st →
      alerts_batch_merge_loop cid ids db = .ok
        { db with
          alerts := db.alerts.map (fun a =>
            if ids.contains a.alert_id then { a with alert_status_id := st.status_id }
            else a)
          events := db.events ++
            (ids.filter (fun aid => (get_alert_by_id db aid).isSome)).flatMap
              (fun aid => [Ev.commit, Ev.mergeAlertInCase aid cid none]) } := by
  intro ids
  induction ids with
  | nil =>
    intro db hst
    simp [alerts_batch_merge_loop]
  | cons aid rest ih =>
    intro db hst
    simp only [alerts_batch_merge_loop]
    cases hga : get_alert_by_id db aid with
    | none =>
      rw [ih db hst]
      have hne : ∀ a ∈ db.alerts, (a.alert_id == aid) = false := by
        intro a ha
        have := List.find?_eq_none.1 hga a ha
        simpa using this
      have halerts : db.alerts.map (fun a =>
          if rest.contains a.alert_id then { a with alert_status_id := st.status_id }
          else a) = db.alerts.map (fun a =>
          if (aid :: rest).contains a.alert_id then { a with alert_status_id := st.status_id }
          else a) := by
        apply List.map_congr_left
        intro a ha
        have hne' : a.alert_id ≠ aid := by simpa using hne a ha
        simp [List.contains_cons, hne']
      have hfilter : rest.filter (fun x => (get_alert_by_id db x).isSome) =
          (aid :: rest).filter (fun x => (get_alert_by_id db x).isSome) := by
        simp [List.filter_cons, hga]
      rw [halerts, hfilter]
    | some alert =>
      rw [hst]
      have hid : alert.alert_id = aid := get_alert_by_id_eq_id db aid alert hga
      dsimp only
      rw [hid]
      have hst1 : status_by_name
          (emit (db_commit (set_alert_status db aid st.status_id))
            (.mergeAlertInCase aid cid none)) "Merged" = some st := by
        simpa using hst
      rw [ih _ hst1]
      have hres : ∀ x : Int,
          (get_alert_by_id (emit (db_commit (set_alert_status db aid st.status_id))
            (.mergeAlertInCase aid cid none)) x).isSome =
          (get_alert_by_id db x).isSome := by
        intro x
        simp [db_commit, get_alert_set_status_isSome]
      have hfun : ∀ a : Alert,
          (fun a => if rest.contains a.alert_id then
            { a with alert_status_id := st.status_id } else a)
          ((fun a => if a.alert_id == aid then
            { a with alert_status_id := st.status_id } else a) a) =
          (if (aid :: rest).contains a.alert_id then
            { a with alert_status_id := st.status_id } else a) := by
        intro a
        by_cases h : a.alert_id = aid
        · simp [List.contains_cons, h, ite_self]
        · simp [List.contains_cons, h]
      have hfilter : rest.filter (fun x => (get_alert_by_id db x).isSome) =
          (rest.filter (fun x =>
            (get_alert_by_id (emit (db_commit (set_alert_status db aid st.status_id))
              (.mergeAlertInCase aid cid none)) x).isSome)) := by
        apply List.filter_congr
        intro x _
        rw [hres x]
      rw [← hfilter]
      simp only [Except.ok.injEq, AlertsDB.mk.injEq]
      refine ⟨?_, ?_, ?_, ?_, ?_⟩
      · simp only [db_commit, emit_alerts, set_alert_status_alerts]
        rw [List.map_map]
        apply List.map_congr_left
        intro a _
        simpa using hfun a
      · simp [db_commit]
      · simp [db_commit]
      · simp [db_commit]
      · simp only [db_commit, emit_events, set_alert_status_events]
        have hcons : (aid :: rest).filter (fun x => (get_alert_by_id db x).isSome) =
            aid :: rest.filter (fun x => (get_alert_by_id db x).isSome) := by
          simp [List.filter_cons, hga]
        rw [hcons, List.flatMap_cons]
        simp [List.append_assoc]

/-- Lookup after mapping an id-preserving function over the alert table. -/
theorem get_alert_map_preserving (db : AlertsDB) (f : Alert → Alert)
    (hf : ∀ a, (f a).alert_id = a.alert_id) (x : Int) :
    get_alert_by_id { db with alerts := db.alerts.map f } x =
      (get_alert_by_id db x).map f := by
  simp only [get_alert_by_id]
  rw [List.find?_map]
  have hp : ((fun a : Alert => a.alert_id == x) ∘ f) =
      (fun a : Alert => a.alert_id == x) := by
    funext a
    simp [Function.comp, hf a]
  rw [hp]

/-- `find?` by id commutes with mapping an id-preserving function. -/
theorem find_alert_map_preserving (alerts : List Alert) (f : Alert → Alert)
    (hf : ∀ a, (f a).alert_id = a.alert_id) (x : Int) :
    (alerts.map f).find? (fun a => a.alert_id == x) =
      (alerts.find? (fun a => a.alert_id == x)).map f := by
  rw [List.find?_map]
  have hp : ((fun a : Alert => a.alert_id == x) ∘ f) =
      (fun a : Alert => a.alert_id == x) := by
    funext a
    simp [Function.comp, hf a]
  rw [hp]

/-- `find?` by case id commutes with mapping an id-preserving function. -/
theorem find_case_map_preserving (cs : List CaseRec) (g : CaseRec → CaseRec)
    (hg : ∀ c, (g c).case_id = c.case_id) (x : Int) :
    (cs.map g).find? (fun c => c.case_id == x) =
      (cs.find? (fun c => c.case_id == x)).map g := by
  rw [List.find?_map]
  have hp : ((fun c : CaseRec => c.case_id == x) ∘ g) =
      (fun c : CaseRec => c.case_id == x) := by
    funext c
    simp [Function.comp, hg c]
  rw [hp]

/-- Specialization of `find_case_map_preserving` to the description rewrite
done by the batch-merge note step. -/
theorem find_case_set_desc (cs : List CaseRec) (k : Int) (d : String) (x : Int) :
    (cs.map (fun c => if c.case_id == k then { c with description := d } else c)).find?
      (fun c => c.case_id == x) =
    (cs.find? (fun c => c.case_id == x)).map
      (fun c => if c.case_id == k then { c with description := d } else c) := by
  apply find_case_map_preserving
  intro c
  dsimp only
  split <;> rfl

@[simp] theorem get_case_mk (al : List Alert) (cs : List CaseRec)
    (sts : List AlertStatusRec) (cmts : List CommentRec) (evs : List Ev) (x : Int) :
    get_case ⟨al, cs, sts, cmts, evs⟩ x = cs.find? (fun c => c.case_id == x) := rfl

theorem isEmpty_false_of_ne_nil {α : Type} (l : List α) (h : l ≠ []) :
    l.isEmpty = false := by
  cases l with
  | nil => exact absurd rfl h
  | cons a t => rfl

/-- In any state whose alert table is the batch status rewrite of `db`'s,
every id of the batch that resolves in `db` reads back the new status. -/
theorem alert_status_of_mapped (X db : AlertsDB) (ids : List Int) (sid aid : Int)
    (hX : X.alerts = db.alerts.map (fun a =>
      if ids.contains a.alert_id then { a with alert_status_id := sid } else a))
    (hmem : aid ∈ ids) (hsome : (get_alert_by_id db aid).isSome) :
    alert_status_of X aid = some sid := by
  obtain ⟨a, ha⟩ := Option.isSome_iff_exists.1 hsome
  have hida : a.alert_id = aid := get_alert_by_id_eq_id db aid a ha
  have hf : ∀ b : Alert, ((fun b =>
      if ids.contains b.alert_id then { b with alert_status_id := sid } else b) b).alert_id =
      b.alert_id := by
    intro b
    dsimp only
    split <;> rfl
  unfold alert_status_of get_alert_by_id
  rw [hX, find_alert_map_preserving _ _ hf aid]
  have ha' : db.alerts.find? (fun b => b.alert_id == aid) = some a := ha
  rw [ha']
  simp [hida, hmem]

/-- The ids of the alerts collected by batch escalate are exactly the
resolvable ids, in order. -/
theorem filterMap_collected_ids (db : AlertsDB) (sid : Int) :
    ∀ ids : List Int,
      (ids.filterMap (fun aid => (get_alert_by_id db aid).map
        (fun a => { a with alert_status_id := sid }))).map (fun a => a.alert_id) =
      ids.filter (fun aid => (get_alert_by_id db aid).isSome) := by
  intro ids
  induction ids with
  | nil => rfl
  | cons aid rest ih =>
    cases hga : get_alert_by_id db aid with
    | none => simp [List.filterMap_cons, List.filter_cons, hga, ih]
    | some a =>
      have hida : a.alert_id = aid := get_alert_by_id_eq_id db aid a hga
      simp [List.filterMap_cons, List.filter_cons, hga, ih, hida]

/-- Closed form of the batch-escalate loop when the `"Merged"` registry entry
exists: every resolvable id's alert gets the Merged status with one commit
per resolvable id, and the loop collects exactly the resolved alerts (with
their updated status), in list order, appended to the accumulator. -/
theorem batch_escalate_loop_spec (st : AlertStatusRec) :
    ∀ (ids : List Int) (db : AlertsDB) (acc : List Alert),
      status_by_name db "Merged" = some st →
      alerts_batch_escalate_loop ids db acc = .ok (
        { db with
          alerts := db.alerts.map (fun a =>
            if ids.contains a.alert_id then { a with alert_status_id := st.status_id }
            else a)
          events := db.events ++
            (ids.filter (fun aid => (get_alert_by_id db aid).isSome)).map
              (fun _ => Ev.commit) },
        acc ++ ids.filterMap (fun aid => (get_alert_by_id db aid).map
          (fun a => { a with alert_status_id := st.status_id }))) := by
  intro ids
  induction ids with
  | nil =>
    intro db acc hst
    simp [alerts_batch_escalate_loop]
  | cons aid rest ih =>
    intro db acc hst
    simp only [alerts_batch_escalate_loop]
    cases hga : get_alert_by_id db aid with
    | none =>
      rw [ih db acc hst]
      have hne : ∀ a ∈ db.alerts, (a.alert_id == aid) = false := by
        intro a ha
        have := List.find?_eq_none.1 hga a ha
        simpa using this
      have halerts : db.alerts.map (fun a =>
          if rest.contains a.alert_id then { a with alert_status_id := st.status_id }
          else a) = db.alerts.map (fun a =>
          if (aid :: rest).contains a.alert_id then { a with alert_status_id := st.status_id }
          else a) := by
        apply List.map_congr_left
        intro a ha
        have hne' : a.alert_id ≠ aid := by simpa using hne a ha
        simp [List.contains_cons, hne']
      have hfilter : rest.filter (fun x => (get_alert_by_id db x).isSome) =
          (aid :: rest).filter (fun x => (get_alert_by_id db x).isSome) := by
        simp [List.filter_cons, hga]
      have hfm : (aid :: rest).filterMap (fun x => (get_alert_by_id db x).map
          (fun a => { a with alert_status_id := st.status_id })) =
          rest.filterMap (fun x => (get_alert_by_id db x).map
            (fun a => { a with alert_status_id := st.status_id })) := by
        simp [List.filterMap_cons, hga]
      rw [halerts, hfilter, hfm]
    | some alert =>
      rw [hst]
      have hid : alert.alert_id = aid := get_alert_by_id_eq_id db aid alert hga
      dsimp only
      rw [hid]
      have hst1 : status_by_name (db_commit (set_alert_status db aid st.status_id))
          "Merged" = some st := by
        simpa [db_commit] using hst
      rw [ih _ _ hst1]
      have hres : ∀ x : Int,
          (get_alert_by_id (db_commit (set_alert_status db aid st.status_id)) x).isSome =
          (get_alert_by_id db x).isSome := by
        intro x
        simp [db_commit, get_alert_set_status_isSome]
      have hfun : ∀ a : Alert,
          (fun a => if rest.contains a.alert_id then
            { a with alert_status_id := st.status_id } else a)
          ((fun a => if a.alert_id == aid then
            { a with alert_status_id := st.status_id } else a) a) =
          (if (aid :: rest).contains a.alert_id then
            { a with alert_status_id := st.status_id } else a) := by
        intro a
        by_cases h : a.alert_id = aid
        · simp [List.contains_cons, h, ite_self]
        · simp [List.contains_cons, h]
      have hfilter : rest.filter (fun x => (get_alert_by_id db x).isSome) =
          (rest.filter (fun x =>
            (get_alert_by_id (db_commit (set_alert_status db aid st.status_id))
              x).isSome)) := by
        apply List.filter_congr
        intro x _
        rw [hres x]
      have hfm : (fun x : Int =>
            (get_alert_by_id (db_commit (set_alert_status db aid st.status_id)) x).map
              (fun a => { a with alert_status_id := st.status_id })) =
          (fun x : Int => (get_alert_by_id db x).map
            (fun a => { a with alert_status_id := st.status_id })) := by
        funext y
        simp only [db_commit, get_alert_emit, get_alert_set_status, Option.map_map]
        cases hy : get_alert_by_id db y with
        | none => rfl
        | some a =>
          simp only [Option.map_some', Function.comp]
          by_cases h : a.alert_id = aid <;> simp [h]
      rw [← hfilter, hfm]
      simp only [Except.ok.injEq, Prod.mk.injEq, AlertsDB.mk.injEq]
      refine ⟨⟨?_, ?_, ?_, ?_, ?_⟩, ?_⟩
      · simp only [db_commit, emit_alerts, set_alert_status_alerts]
        rw [List.map_map]
        apply List.map_congr_left
        intro a _
        simpa using hfun a
      · simp [db_commit]
      · simp [db_commit]
      · simp [db_commit]
      · simp only [db_commit, emit_events, set_alert_status_events]
        have hcons : (aid :: rest).filter (fun x => (get_alert_by_id db x).isSome) =
            aid :: rest.filter (fun x => (get_alert_by_id db x).isSome) := by
          simp [List.filter_cons, hga]
        rw [hcons]
        simp [List.append_assoc]
      · have hcons : (aid :: rest).filterMap (fun x => (get_alert_by_id db x).map
            (fun a => { a with alert_status_id := st.status_id })) =
            { alert with alert_status_id := st.status_id } :: rest.filterMap
              (fun x => (get_alert_by_id db x).map
                (fun a => { a with alert_status_id := st.status_id })) := by
          simp [List.filterMap_cons, hga]
        rw [hcons]
        simp [List.append_assoc, hid]

/-- The batch-update loop aborts at the first unresolvable id: the ids after
it are never examined (dropping them does not change the outcome) and the
response is an error naming the offending id. -/
theorem batch_update_loop_abort (upd : Alert → Alert)
    (hid : ∀ a, (upd a).alert_id = a.alert_id) (bad : Int) (post : List Int) :
    ∀ (pre : List Int) (db : AlertsDB),
      (∀ x ∈ pre, (get_alert_by_id db x).isSome) →
      get_alert_by_id db bad = none →
      (alerts_batch_update_loop upd (pre ++ bad :: post) db =
        alerts_batch_update_loop upd (pre ++ [bad]) db ∧
      (alerts_batch_update_loop upd (pre ++ bad :: post) db).1 =
        .error ("Alert with ID " ++ toString bad ++ " not found")) := by
  intro pre
  induction pre with
  | nil =>
    intro db _ hbad
    simp [alerts_batch_update_loop, hbad]
  | cons p pre' ih =>
    intro db hpre hbad
    have hp : (get_alert_by_id db p).isSome := hpre p (List.mem_cons_self p pre')
    obtain ⟨alert, halert⟩ := Option.isSome_iff_exists.1 hp
    have hidf : ∀ a : Alert,
        ((fun a => if a.alert_id == alert.alert_id then upd a else a) a).alert_id =
          a.alert_id := by
      intro a
      by_cases h : a.alert_id == alert.alert_id <;> simp [h, hid]
    simp only [List.cons_append, alerts_batch_update_loop, halert]
    refine ih _ ?_ ?_
    · intro x hx
      have h := hpre x (List.mem_cons_of_mem p hx)
      simp only [db_commit, get_alert_emit]
      rw [get_alert_map_preserving db _ hidf x]
      obtain ⟨a, ha⟩ := Option.isSome_iff_exists.1 h
      rw [ha]
      rfl
    · simp only [db_commit, get_alert_emit]
      rw [get_alert_map_preserving db _ hidf bad, hbad]
      rfl

/-! ## Claim theorems: batch routes -/

/-- C3 counterexample: the claim says a supplied note is appended to the case
description using a fixed markdown header; on a target case whose description
is empty the batch succeeds but the note is appended bare — the final
description is `"\n\nn\n\n"`, not the header form the claim asserts. -/
theorem batch_merge_note_header_missing_on_empty_description :
    (alerts_batch_merge_route ⟨[⟨5, 0⟩], [⟨9, "c9", ""⟩], [⟨1, "Merged"⟩], [], []⟩
      (some 9) [5] (some "n")).1 = .success "9" ∧
    (get_case (alerts_batch_merge_route ⟨[⟨5, 0⟩], [⟨9, "c9", ""⟩], [⟨1, "Merged"⟩], [], []⟩
      (some 9) [5] (some "n")).2 9).map (fun c => c.description) = some "\n\nn\n\n" ∧
    ("\n\nn\n\n" : String) ≠ "" ++ "\n\n### Escalation note\n\n" ++ "n" ++ "\n\n" := by
  refine ⟨rfl, rfl, by decide⟩

/-- C3 amended: batch merge silently skips every id that does not resolve to
an alert and does not abort — the route still succeeds; each resolved alert's
status is set to the `"Merged"` registry entry with one commit and one
note-less merge into the target case per resolved alert; after the loop a
truthy note is appended to the case description exactly once (never
per-alert), but the fixed markdown header `"### Escalation note"` is used
only when the case description was previously non-empty — an empty
description receives the bare note. -/
theorem batch_merge_amended (db : AlertsDB) (tcid : Int) (case : CaseRec)
    (ids : List Int) (note : Option String) (st : AlertStatusRec)
    (hcase : get_case db tcid = some case)
    (hst : status_by_name db "Merged" = some st)
    (hne : ids ≠ []) :
    (alerts_batch_merge_route db (some tcid) ids note).1 =
      .success (toString case.case_id) ∧
    (∀ aid ∈ ids, (get_alert_by_id db aid).isSome →
      alert_status_of (alerts_batch_merge_route db (some tcid) ids note).2 aid =
        some st.status_id) ∧
    ((alerts_batch_merge_route db (some tcid) ids note).2.events = db.events ++
      (ids.filter (fun aid => (get_alert_by_id db aid).isSome)).flatMap
        (fun aid => [Ev.commit, Ev.mergeAlertInCase aid case.case_id none]) ++
      (if noteTruthy note then [Ev.commit] else [])) ∧
    ((get_case (alerts_batch_merge_route db (some tcid) ids note).2 tcid).map
      (fun c => c.description) = some (if noteTruthy note then
        case.description ++ (if case.description == "" then
          "\n\n" ++ note.getD "" ++ "\n\n"
          else "\n\n### Escalation note\n\n" ++ note.getD "" ++ "\n\n")
        else case.description)) := by
  have hne' : ids.isEmpty = false := isEmpty_false_of_ne_nil ids hne
  have hloop := batch_merge_loop_spec case.case_id st ids db hst
  have hcid : case.case_id = tcid := get_case_eq_id db tcid case hcase
  refine ⟨?_, ?_, ?_, ?_⟩
  · simp only [alerts_batch_merge_route, hne', hcase, hloop]
    rcases note with _ | n
    · rfl
    · by_cases hn : n == "" <;> simp [alerts_batch_merge_note, hn]
  · intro aid hmem hsome
    simp only [alerts_batch_merge_route, hne', hcase, hloop]
    rcases note with _ | n
    · exact alert_status_of_mapped _ db ids st.status_id aid rfl hmem hsome
    · by_cases hn : n == ""
      · simp only [alerts_batch_merge_note, hn]
        exact alert_status_of_mapped _ db ids st.status_id aid rfl hmem hsome
      · simp only [alerts_batch_merge_note, hn]
        refine alert_status_of_mapped _ db ids st.status_id aid ?_ hmem hsome
        simp [db_commit]
  · simp only [alerts_batch_merge_route, hne', hcase, hloop]
    rcases note with _ | n
    · simp [alerts_batch_merge_note, noteTruthy]
    · by_cases hn : n == ""
      · have hn' : n = "" := by simpa using hn
        simp [alerts_batch_merge_note, noteTruthy, hn']
      · have hn' : n ≠ "" := by simpa using hn
        simp [alerts_batch_merge_note, noteTruthy, hn', db_commit, List.append_assoc]
  · have hfc : db.cases.find? (fun c => c.case_id == tcid) = some case := hcase
    simp only [alerts_batch_merge_route, hne', hcase, hloop, Bool.false_eq_true,
      if_false]
    rcases note with _ | n
    · simp only [alerts_batch_merge_note, get_case_mk]
      rw [hfc]
      simp [noteTruthy]
    · by_cases hn : n == ""
      · have hn' : n = "" := by simpa using hn
        subst hn'
        simp only [alerts_batch_merge_note]
        rw [if_pos hn]
        simp only [get_case_mk]
        rw [hfc]
        simp [noteTruthy]
      · have hn' : n ≠ "" := by simpa using hn
        simp only [alerts_batch_merge_note, if_neg hn]
        simp only [db_commit, get_case_emit, get_case_mk]
        rw [find_case_set_desc, hfc]
        simp [noteTruthy, hn', hcid]

/-- C3 amended witness: ids `[5, 7, 9]` where 7 does not resolve — 5 and 9
are merged (status set to the Merged entry), 7 is skipped without aborting,
and the note lands in the description exactly once, with the header since the
description was non-empty. -/
theorem batch_merge_amended_witness :
    (get_case ⟨[⟨5, 0⟩, ⟨9, 0⟩], [⟨4, "c", "d"⟩], [⟨1, "Merged"⟩], [], []⟩ 4 =
      some ⟨4, "c", "d"⟩) ∧
    (status_by_name ⟨[⟨5, 0⟩, ⟨9, 0⟩], [⟨4, "c", "d"⟩], [⟨1, "Merged"⟩], [], []⟩ "Merged" =
      some ⟨1, "Merged"⟩) ∧
    ([5, 7, 9] : List Int) ≠ [] ∧
    (alerts_batch_merge_route ⟨[⟨5, 0⟩, ⟨9, 0⟩], [⟨4, "c", "d"⟩], [⟨1, "Merged"⟩], [], []⟩
      (some 4) [5, 7, 9] (some "n")).1 = .success "4" ∧
    alert_status_of (alerts_batch_merge_route
      ⟨[⟨5, 0⟩, ⟨9, 0⟩], [⟨4, "c", "d"⟩], [⟨1, "Merged"⟩], [], []⟩
      (some 4) [5, 7, 9] (some "n")).2 5 = some 1 ∧
    alert_status_of (alerts_batch_merge_route
      ⟨[⟨5, 0⟩, ⟨9, 0⟩], [⟨4, "c", "d"⟩], [⟨1, "Merged"⟩], [], []⟩
      (some 4) [5, 7, 9] (some "n")).2 9 = some 1 ∧
    (alerts_batch_merge_route ⟨[⟨5, 0⟩, ⟨9, 0⟩], [⟨4, "c", "d"⟩], [⟨1, "Merged"⟩], [], []⟩
      (some 4) [5, 7, 9] (some "n")).2.events =
      [Ev.commit, Ev.mergeAlertInCase 5 4 none, Ev.commit, Ev.mergeAlertInCase 9 4 none,
        Ev.commit] ∧
    (get_case (alerts_batch_merge_route
      ⟨[⟨5, 0⟩, ⟨9, 0⟩], [⟨4, "c", "d"⟩], [⟨1, "Merged"⟩], [], []⟩
      (some 4) [5, 7, 9] (some "n")).2 4).map (fun c => c.description) =
      some ("d" ++ "\n\n### Escalation note\n\n" ++ "n" ++ "\n\n") := by
  have h := batch_merge_amended ⟨[⟨5, 0⟩, ⟨9, 0⟩], [⟨4, "c", "d"⟩], [⟨1, "Merged"⟩], [], []⟩
    4 ⟨4, "c", "d"⟩ [5, 7, 9] (some "n") ⟨1, "Merged"⟩ rfl rfl (by decide)
  refine ⟨rfl, rfl, by decide, h.1, ?_, ?_, ?_, ?_⟩
  · exact h.2.1 5 (by decide) rfl
  · exact h.2.1 9 (by decide) rfl
  · rw [h.2.2.1]
    rfl
  · rw [h.2.2.2]
    rfl

/-- C4: batch escalate resolves each listed id (silently skipping
unresolvable ones), sets each resolved alert's status to the registry entry
named `"Merged"` — not `"Escalated"` —, collects the resolved alerts in list
order, and creates exactly one new case from the whole collection (the case
table grows by exactly that one case); on success the access-grant,
module-hook, history and activity-audit steps of single escalation follow,
in that order. -/
theorem batch_escalate_spec (db : AlertsDB) (ids : List Int) (st : AlertStatusRec)
    (case : CaseRec) (mk_case : List Alert → Except String (Option CaseRec))
    (hook : CaseRec → CaseRec)
    (hst : status_by_name db "Merged" = some st)
    (hne : ids ≠ [])
    (hcase : mk_case (ids.filterMap (fun aid => (get_alert_by_id db aid).map
      (fun a => { a with alert_status_id := st.status_id }))) = Except.ok (some case)) :
    st.status_name = "Merged" ∧
    ((ids.filterMap (fun aid => (get_alert_by_id db aid).map
      (fun a => { a with alert_status_id := st.status_id }))).map (fun a => a.alert_id) =
        ids.filter (fun aid => (get_alert_by_id db aid).isSome)) ∧
    (∀ a ∈ ids.filterMap (fun aid => (get_alert_by_id db aid).map
      (fun a => { a with alert_status_id := st.status_id })),
        a.alert_status_id = st.status_id) ∧
    (alerts_batch_escalate_route db ids mk_case hook).1 =
      .success (toString (hook case).case_id) ∧
    (∀ aid ∈ ids, (get_alert_by_id db aid).isSome →
      alert_status_of (alerts_batch_escalate_route db ids mk_case hook).2 aid =
        some st.status_id) ∧
    (alerts_batch_escalate_route db ids mk_case hook).2.cases = db.cases ++ [case] ∧
    (alerts_batch_escalate_route db ids mk_case hook).2.events =
      db.events ++
        (ids.filter (fun aid => (get_alert_by_id db aid).isSome)).map (fun _ => Ev.commit) ++
        [Ev.accessGrant case.case_id, Ev.moduleHook "on_postload_case_create" case.case_id,
          Ev.historyEntry (hook case).case_id "created",
          Ev.trackActivity ("new case " ++ (hook case).name ++ " created from alerts")] := by
  have hne' : ids.isEmpty = false := isEmpty_false_of_ne_nil ids hne
  have hloop := batch_escalate_loop_spec st ids db [] hst
  refine ⟨status_by_name_eq_name db "Merged" st hst,
    filterMap_collected_ids db st.status_id ids, ?_, ?_, ?_, ?_, ?_⟩
  · intro a ha
    obtain ⟨aid, -, hfa⟩ := List.mem_filterMap.1 ha
    cases hga : get_alert_by_id db aid with
    | none => rw [hga] at hfa; exact absurd hfa (by simp)
    | some b =>
      rw [hga] at hfa
      simp only [Option.map_some', Option.some.injEq] at hfa
      rw [← hfa]
  · simp only [alerts_batch_escalate_route, hne', Bool.false_eq_true, if_false,
      hloop, List.nil_append, hcase]
  · intro aid hmem hsome
    simp only [alerts_batch_escalate_route, hne', Bool.false_eq_true, if_false,
      hloop, List.nil_append, hcase]
    refine alert_status_of_mapped _ db ids st.status_id aid ?_ hmem hsome
    simp [emit]
  · simp only [alerts_batch_escalate_route, hne', Bool.false_eq_true, if_false,
      hloop, List.nil_append, hcase]
    simp [emit]
  · simp only [alerts_batch_escalate_route, hne', Bool.false_eq_true, if_false,
      hloop, List.nil_append, hcase]
    simp [emit, List.append_assoc]

/-- C4 witness: ids `[5, 7, 9]` with 7 unresolvable — 5 and 9 are collected
with Merged status, one case is created from both, and the post-creation
steps follow. -/
theorem batch_escalate_spec_witness :
    (status_by_name ⟨[⟨5, 0⟩, ⟨9, 0⟩], [], [⟨1, "Merged"⟩], [], []⟩ "Merged" =
      some ⟨1, "Merged"⟩) ∧
    ([5, 7, 9] : List Int) ≠ [] ∧
    ((fun _ : List Alert => (Except.ok (some (⟨4, "c", "d"⟩ : CaseRec)) :
      Except String (Option CaseRec)))
      (([5, 7, 9] : List Int).filterMap (fun aid =>
        (get_alert_by_id ⟨[⟨5, 0⟩, ⟨9, 0⟩], [], [⟨1, "Merged"⟩], [], []⟩ aid).map
          (fun a => { a with alert_status_id := 1 }))) = Except.ok (some ⟨4, "c", "d"⟩)) ∧
    (([5, 7, 9] : List Int).filterMap (fun aid =>
      (get_alert_by_id ⟨[⟨5, 0⟩, ⟨9, 0⟩], [], [⟨1, "Merged"⟩], [], []⟩ aid).map
        (fun a => { a with alert_status_id := 1 }))).map (fun a => a.alert_id) =
      [5, 9] ∧
    (alerts_batch_escalate_route ⟨[⟨5, 0⟩, ⟨9, 0⟩], [], [⟨1, "Merged"⟩], [], []⟩
      [5, 7, 9] (fun _ => Except.ok (some ⟨4, "c", "d"⟩)) id).1 = .success "4" ∧
    alert_status_of (alerts_batch_escalate_route
      ⟨[⟨5, 0⟩, ⟨9, 0⟩], [], [⟨1, "Merged"⟩], [], []⟩
      [5, 7, 9] (fun _ => Except.ok (some ⟨4, "c", "d"⟩)) id).2 5 = some 1 ∧
    (alerts_batch_escalate_route ⟨[⟨5, 0⟩, ⟨9, 0⟩], [], [⟨1, "Merged"⟩], [], []⟩
      [5, 7, 9] (fun _ => Except.ok (some ⟨4, "c", "d"⟩)) id).2.cases =
      [] ++ [⟨4, "c", "d"⟩] ∧
    (alerts_batch_escalate_route ⟨[⟨5, 0⟩, ⟨9, 0⟩], [], [⟨1, "Merged"⟩], [], []⟩
      [5, 7, 9] (fun _ => Except.ok (some ⟨4, "c", "d"⟩)) id).2.events =
      [Ev.commit, Ev.commit, Ev.accessGrant 4, Ev.moduleHook "on_postload_case_create" 4,
        Ev.historyEntry 4 "created",
        Ev.trackActivity ("new case " ++ "c" ++ " created from alerts")] := by
  have h := batch_escalate_spec ⟨[⟨5, 0⟩, ⟨9, 0⟩], [], [⟨1, "Merged"⟩], [], []⟩
    [5, 7, 9] ⟨1, "Merged"⟩ ⟨4, "c", "d"⟩
    (fun _ => Except.ok (some ⟨4, "c", "d"⟩)) id rfl (by decide) rfl
  refine ⟨rfl, by decide, rfl, ?_, h.2.2.2.1, ?_, ?_, ?_⟩
  · rw [h.2.1]
    rfl
  · exact h.2.2.2.2.1 5 (by decide) rfl
  · rw [h.2.2.2.2.2.1]
  · rw [h.2.2.2.2.2.2]
    rfl

/-- C8: batch update aborts on the first id that does not resolve to an
alert: the response is an error naming that id, and the ids after it are
never processed (the trailing ids can be dropped without changing the
outcome) — in contrast with the batch-merge loop, which skips a missing id
and continues with the rest. -/
theorem batch_update_aborts_on_first_missing (db : AlertsDB) (upd : Alert → Alert)
    (pre post rest : List Int) (bad cid : Int)
    (hid : ∀ a, (upd a).alert_id = a.alert_id)
    (hpre : ∀ x ∈ pre, (get_alert_by_id db x).isSome)
    (hbad : get_alert_by_id db bad = none) :
    alerts_batch_update_route db upd (pre ++ bad :: post) =
      alerts_batch_update_route db upd (pre ++ [bad]) ∧
    (alerts_batch_update_route db upd (pre ++ bad :: post)).1 =
      .error ("Alert with ID " ++ toString bad ++ " not found") ∧
    alerts_batch_merge_loop cid (bad :: rest) db = alerts_batch_merge_loop cid rest db := by
  have h := batch_update_loop_abort upd hid bad post pre db hpre hbad
  have hne1 : (pre ++ bad :: post).isEmpty = false :=
    isEmpty_false_of_ne_nil _ (by simp)
  have hne2 : (pre ++ [bad]).isEmpty = false :=
    isEmpty_false_of_ne_nil _ (by simp)
  refine ⟨?_, ?_, ?_⟩
  · simp only [alerts_batch_update_route, hne1, hne2, Bool.false_eq_true, if_false]
    exact h.1
  · simp only [alerts_batch_update_route, hne1, Bool.false_eq_true, if_false]
    exact h.2
  · simp [alerts_batch_merge_loop, hbad]

/-- C8 witness: ids `[5, 7, 9]` where 7 is missing — the route stops at 7
with an error naming it, id 9 is never examined, while the batch-merge loop
skips the missing id. -/
theorem batch_update_aborts_on_first_missing_witness :
    ((∀ x ∈ ([5] : List Int),
      (get_alert_by_id ⟨[⟨5, 0⟩, ⟨9, 0⟩], [], [], [], []⟩ x).isSome) ∧
     get_alert_by_id ⟨[⟨5, 0⟩, ⟨9, 0⟩], [], [], [], []⟩ 7 = none) ∧
    alerts_batch_update_route ⟨[⟨5, 0⟩, ⟨9, 0⟩], [], [], [], []⟩ id ([5] ++ 7 :: [9]) =
      alerts_batch_update_route ⟨[⟨5, 0⟩, ⟨9, 0⟩], [], [], [], []⟩ id ([5] ++ [7]) ∧
    (alerts_batch_update_route ⟨[⟨5, 0⟩, ⟨9, 0⟩], [], [], [], []⟩ id
      ([5] ++ 7 :: [9])).1 = .error ("Alert with ID " ++ toString (7 : Int) ++ " not found") ∧
    alerts_batch_merge_loop 0 (7 :: [9]) ⟨[⟨5, 0⟩, ⟨9, 0⟩], [], [], [], []⟩ =
      alerts_batch_merge_loop 0 [9] ⟨[⟨5, 0⟩, ⟨9, 0⟩], [], [], [], []⟩ := by
  have h := batch_update_aborts_on_first_missing ⟨[⟨5, 0⟩, ⟨9, 0⟩], [], [], [], []⟩
    id [5] [9] [9] 7 0 (fun _ => rfl) (by decide) rfl
  exact ⟨⟨by decide, rfl⟩, h.1, h.2.1, h.2.2⟩

end IrisSpec
